import Mathlib

/-!
Verification development for the `windows-unix-tools` repository: three
stand-alone command-line utilities (`locate`, `tail`, `touch`) written in
Rust.  Each tool is shallowly embedded below: its option records, its
argument parsing (`check_args`) and its execution pass are translated into
executable Lean definitions, with machine integers modelled as `Nat`
reduced modulo `2^32` / `2^64` where the Rust code uses `u32` / `u64`,
fallible operations returning `Option`, and process termination captured
by explicit result constructors (normal return, `process::exit(code)`,
and panics from unchecked indexing or `unwrap()`).

The filesystem, the regex engine and the directory walker are external
collaborators of the tools; they are modelled as explicit parameters
(a `String → Option _` file map, a `compile : String → Option (String → Bool)`
regex front end, a list of walked entries).
-/

/-! ### String helpers (models of the Rust `str` operations used) -/

/-- Numeric value of a list of decimal digit characters (most significant
first), as accumulated by Rust's integer `FromStr` parsers. -/
def digitsVal (l : List Char) : Nat :=
  l.foldl (fun a c => a * 10 + (c.toNat - 48)) 0

/-- `leadsWith hay needle`: does `hay` start with `needle`?
Model of `str::starts_with` on character lists. -/
def leadsWith : List Char → List Char → Bool
  | _, [] => true
  | [], _ :: _ => false
  | a :: hs, b :: ns => a == b && leadsWith hs ns

/-- `containsL hay needle`: does `needle` occur contiguously inside `hay`?
Model of Rust `str::contains` with a string pattern. -/
def containsL (hay needle : List Char) : Bool :=
  match hay with
  | [] => needle.isEmpty
  | c :: t => leadsWith (c :: t) needle || containsL t needle

/-- Per-character lowercasing, the model of `str::to_lowercase` (the
arguments in this code base are ASCII flags, units and paths). -/
def lowerL (l : List Char) : List Char :=
  l.map Char.toLower

/-- Lowercased `String`, wrapping `lowerL`. -/
def lowerStr (s : String) : String :=
  ⟨lowerL s.data⟩

/-- Split a character list at every occurrence of `sep`, keeping empty
segments: the model of Rust `str::split('\n')` (an empty input yields one
empty segment, a trailing separator yields a trailing empty segment). -/
def splitChar (sep : Char) : List Char → List (List Char)
  | [] => [[]]
  | c :: t =>
    if c == sep then [] :: splitChar sep t
    else
      match splitChar sep t with
      | h :: r => (c :: h) :: r
      | [] => [[c]]

/-- Model of `str::parse::<u32>`: an optional leading `+`, then one or
more ASCII digits, value below `2^32`. -/
def parseU32 (s : String) : Option Nat :=
  let cs := match s.data with
    | '+' :: rest => rest
    | other => other
  if cs.isEmpty then none
  else if cs.all Char.isDigit then
    let v := digitsVal cs
    if v < 2 ^ 32 then some v else none
  else none

/-- Model of `str::parse::<u64>` applied to the digit run harvested by
`take_while(is_ascii_digit)`: since that run can never carry the optional
sign Rust's parser would accept, only nonemptiness, digitness and the
`u64` bound matter. -/
def parseDigitsU64 (l : List Char) : Option Nat :=
  if l.isEmpty then none
  else if l.all Char.isDigit then
    let v := digitsVal l
    if v < 2 ^ 64 then some v else none
  else none

/-- Does the string start with `'-'` or `'/'`?  Model of
`arg.starts_with('-') || arg.starts_with('/')`. -/
def startsDashSlash (s : String) : Bool :=
  match s.data with
  | c :: _ => c == '-' || c == '/'
  | [] => false

namespace Tail

/-- `tail`'s mutable options record (`struct Options`): `num_lines: u32`
defaulting to 10, `num_bytes: Option<u32>` defaulting to `None`. -/
structure Options where
  num_lines : Nat
  num_bytes : Option Nat
deriving DecidableEq

/-- `Options::new()`. -/
def Options.new : Options :=
  { num_lines := 10, num_bytes := none }

/-- `parse_size`: split the token into its leading decimal digit run and
the remaining unit suffix, parse the digits as `u64`, then scale by the
(case-insensitively matched) unit.  `u64` products are reduced modulo
`2^64`, the release-build wrapping semantics of Rust multiplication. -/
def parse_size (s : String) : Option Nat :=
  let cs := s.data
  let value := cs.takeWhile Char.isDigit
  let unit := cs.dropWhile Char.isDigit
  match parseDigitsU64 value with
  | none => none
  | some v =>
    match lowerL unit with
    | ['k'] => some (v * 1024 % 2 ^ 64)
    | ['m'] => some (v * 1024 * 1024 % 2 ^ 64)
    | ['g'] => some (v * 1024 * 1024 * 1024 % 2 ^ 64)
    | [] => some v
    | _ => none

/-- Outcome of `tail`'s `check_args`: usage exit (`exit(1)`), help exit
(`exit(0)`), a fatal parse error printed to standard error followed by
`exit(1)` (the carried string is the first diagnostic line), a panic from
the unchecked `args[2]` index, or a normal return with the options set. -/
inductive CheckResult where
  | usageExit
  | helpExit
  | valueErrExit (msg : String)
  | panicOOB
  | ok (o : Options)
deriving DecidableEq

/-- `tail`'s `check_args`: inspects only `args[1]`.  The `/l` branch
indexes `args[2]` without a bounds check, so a missing value panics; the
`/b` branch checks `args.len() > 2` first and reports a missing value as
an error exit. -/
def check_args (args : List String) : CheckResult :=
  if args.length = 1 then .usageExit
  else
    match args.get? 1 with
    | none => .panicOOB
    | some arg =>
      if arg == "/h" || arg == "--help" then .helpExit
      else if arg == "/l" || arg == "--num-lines" then
        match args.get? 2 with
        | none => .panicOOB
        | some v =>
          match parseU32 v with
          | some n => .ok { Options.new with num_lines := n }
          | none => .valueErrExit
              "Error: Expected value after /l or --num-lines flag to be a positive whole number"
      else if arg == "/b" || arg == "--num-bytes" then
        match args.get? 2 with
        | some v =>
          match parse_size v with
          | some size => .ok { Options.new with num_bytes := some (size % 2 ^ 32) }
          | none => .valueErrExit
              ("Error: Invalid size format '" ++ v ++ "' after /b or --num-bytes flag")
        | none => .valueErrExit "Error: Missing value after /b or --num-bytes flag"
      else .ok Options.new

/-- A file as the tail tool sees it: its raw bytes, and the result of
decoding those bytes as UTF-8 text (`none` when the bytes are not valid
UTF-8, the case in which `read_to_string` returns an error). -/
structure TFile where
  bytes : List Nat
  text : Option String
deriving DecidableEq

/-- Content emitted for one processing of one file: the byte slice of
byte-mode (printed raw, no appended newline) or the selected lines of
line-mode (each printed with `println!`). -/
inductive Output where
  | bytesOut (bs : List Nat)
  | linesOut (ls : List (List Char))
deriving DecidableEq

/-- How a run of the process ends: fall off `main` normally, call
`process::exit code`, or abort in a panic (an `unwrap()` failure or an
out-of-bounds index; the Rust runtime then exits with code 101). -/
inductive Term where
  | normal
  | exit (code : Nat)
  | panicked
deriving DecidableEq

/-- A run of `display_files`: the ordered list of per-file emissions
(each event is one header plus its content), and how the run ended. -/
structure Run where
  events : List (String × Output)
  term : Term
deriving DecidableEq

/-- Byte-mode extraction: with `file_len = bytes.length`, seek to
`start = if file_len > num_bytes then file_len - num_bytes else 0` and
read into a `num_bytes`-sized buffer; the model returns the bytes read,
`min num_bytes (file_len - start)` of them. -/
def tailBytesRead (bytes : List Nat) (num_bytes : Nat) : List Nat :=
  let start := if bytes.length > num_bytes then bytes.length - num_bytes else 0
  (bytes.drop start).take num_bytes

/-- Line-mode extraction: split the decoded contents on `'\n'` and keep
the final `num_lines` segments (all of them when there are fewer). -/
def tailLines (contents : String) (num_lines : Nat) : List (List Char) :=
  let lines := splitChar '\n' contents.data
  let start := if lines.length > num_lines then lines.length - num_lines else 0
  lines.drop start

/-- Process one opened file under the current options.  Byte-mode reads a
byte slice and lossily decodes it for display, so it succeeds on any
bytes; line-mode calls `read_to_string(..).unwrap()`, which panics
(`none`) when the file is not valid UTF-8. -/
def processFile (o : Options) (f : TFile) : Option Output :=
  match o.num_bytes with
  | some n => some (.bytesOut (tailBytesRead f.bytes n))
  | none =>
    match f.text with
    | none => none
    | some s => some (.linesOut (tailLines s o.num_lines))

/-- The inner `for file_path in &file_paths` loop: reopen and reprocess
every accumulated path under the current options.  An open failure prints
an error and exits the process with code 1; an invalid-UTF-8 line-mode
read panics.  Returns the events emitted before any abort, and the abort
kind if one occurred. -/
def procAll (fs : String → Option TFile) (o : Options) :
    List String → List (String × Output) × Option Term
  | [] => ([], none)
  | p :: rest =>
    match fs p with
    | none => ([], some (.exit 1))
    | some f =>
      match processFile o f with
      | none => ([], some .panicked)
      | some out =>
        let (evs, t) := procAll fs o rest
        ((p, out) :: evs, t)

/-- The `while i < args.len()` scan of `display_files`, started at index
0 with an empty `file_paths` accumulator.  Flag arguments update the
running options and `continue`; an argument equal to the executable name
is skipped; any other argument is pushed onto `file_paths`, after which
the inner loop reprocesses the whole accumulator. -/
def dfLoop (fs : String → Option TFile) (fn : String) :
    Options → List String → List String → Run
  | _, _, [] => ⟨[], .normal⟩
  | o, paths, arg :: rest =>
    if startsDashSlash arg then
      if arg == "--num-lines" || arg == "/n" then
        match rest with
        | v :: rest₂ =>
          match parseU32 v with
          | some n => dfLoop fs fn { o with num_lines := n } paths rest₂
          | none => ⟨[], .exit 1⟩
        | [] => ⟨[], .exit 1⟩
      else if arg == "--num-bytes" || arg == "/b" then
        match rest with
        | v :: rest₂ =>
          match parse_size v with
          | some size => dfLoop fs fn { o with num_bytes := some (size % 2 ^ 32) } paths rest₂
          | none => ⟨[], .exit 1⟩
        | [] => ⟨[], .exit 1⟩
      else ⟨[], .exit 1⟩
    else if arg == fn then dfLoop fs fn o paths rest
    else
      let paths₂ := paths ++ [arg]
      match procAll fs o paths₂ with
      | (evs, some t) => ⟨evs, t⟩
      | (evs, none) =>
        let r := dfLoop fs fn o paths₂ rest
        ⟨evs ++ r.events, r.term⟩

/-- `display_files` over the full argument vector. -/
def display_files (fs : String → Option TFile) (fn : String)
    (args : List String) (o : Options) : Run :=
  dfLoop fs fn o [] args

/-- `tail`'s `main`: `check_args` first (it may exit or panic), then
`display_files` with the options it produced. -/
def tailMain (fs : String → Option TFile) (fn : String)
    (args : List String) : Run :=
  match check_args args with
  | .usageExit => ⟨[], .exit 1⟩
  | .helpExit => ⟨[], .exit 0⟩
  | .valueErrExit _ => ⟨[], .exit 1⟩
  | .panicOOB => ⟨[], .panicked⟩
  | .ok o => display_files fs fn args o

end Tail

namespace Locate

/-- `locate`'s options record (`struct Options`): three mode/output
booleans, a `u32` limit defaulting to `u32::MAX`, and the optionally
compiled regex, modelled by its matching function. -/
structure Options where
  base_name : Bool
  case_sens : Bool
  count : Bool
  limit : Nat
  regex : Option (String → Bool)

/-- `Options::new()`: all flags off, `limit = u32::MAX`, no regex. -/
def Options.new : Options :=
  { base_name := false, case_sens := false, count := false,
    limit := 2 ^ 32 - 1, regex := none }

/-- Outcome of `locate`'s `check_args`, as for `tail`. -/
inductive CheckResult where
  | usageExit
  | helpExit
  | valueErrExit (msg : String)
  | panicOOB
  | ok (o : Options)

/-- `locate`'s `check_args`, parametrised by the regex front end
(`compile` models `Regex::new`, `none` meaning a compile error).  Only
`args[1]` is inspected; the usage guard rejects `/l`-with-too-many-args;
both the `/l` and `/r` branches index `args[2]` without a bounds check,
so a missing value panics. -/
def check_args (compile : String → Option (String → Bool))
    (args : List String) : CheckResult :=
  if args.length = 1 then .usageExit
  else
    match args.get? 1 with
    | none => .panicOOB
    | some arg =>
      if (arg == "/l" || arg == "--limit") && args.length > 4 then .usageExit
      else if arg == "/h" || arg == "--help" then .helpExit
      else if arg == "/b" || arg == "--basename" then
        .ok { Options.new with base_name := true }
      else if arg == "/s" || arg == "--case-sensitive" then
        .ok { Options.new with case_sens := true }
      else if arg == "/c" || arg == "--count" then
        .ok { Options.new with count := true }
      else if arg == "/l" || arg == "--limit" then
        match args.get? 2 with
        | none => .panicOOB
        | some v =>
          match parseU32 v with
          | some n => .ok { Options.new with limit := n }
          | none => .valueErrExit
              "Error: Expected value after limit flag to be a positive whole number"
      else if arg == "/r" || arg == "--regex" then
        match args.get? 2 with
        | none => .panicOOB
        | some v =>
          match compile v with
          | some r => .ok { Options.new with regex := some r }
          | none => .valueErrExit
              "Error: Expected expression after regex flag to be a valid regular expression"
      else .ok Options.new

/-- A path as `matches_search` consumes it: its displayed string
(`path.display().to_string()`) and the result of
`path.file_name().and_then(|n| n.to_str())` — `none` when the path has no
final component or that component is not valid UTF-8. -/
structure PathM where
  display : String
  fileName : Option String

/-- `matches_search`: the outer `if let Some(file_name)` guard returns
`false` whenever the basename is unavailable; otherwise the first branch
among `base_name`, `case_sens`, regex-set, default is taken. -/
def matches_search (p : PathM) (search_term : String) (o : Options) : Bool :=
  match p.fileName with
  | some name =>
    if o.base_name then
      containsL (lowerL name.data) (lowerL search_term.data)
    else if o.case_sens then
      containsL p.display.data search_term.data
    else if o.regex.isSome then
      (o.regex.getD (fun _ => false)) (lowerStr p.display)
    else
      containsL (lowerL p.display.data) (lowerL search_term.data)
  | none => false

/-- One entry yielded by the directory walk: its path, whether its
metadata says it is a regular file, and whether the entry and its
metadata resolved at all (inaccessible entries are skipped). -/
structure Entry where
  path : PathM
  is_file : Bool
  ok : Bool

/-- The printing loop of `find_file`: enumerate the matched paths and
break as soon as `idx as u32 == options.limit` — the `usize` index is
truncated to `u32` for the comparison. -/
def printLoop (limit : Nat) : Nat → List String → List String
  | _, [] => []
  | idx, f :: rest =>
    if idx % 2 ^ 32 == limit then [] else f :: printLoop limit (idx + 1) rest

/-- The matched-file list `find_file` accumulates: accessible regular
files whose path satisfies `matches_search`, in traversal order, as
displayed strings. -/
def matchedFiles (entries : List Entry) (search_term : String)
    (o : Options) : List String :=
  (entries.filter (fun e => e.ok && e.is_file && matches_search e.path search_term o)).map
    (fun e => e.path.display)

/-- `find_file` over the walked entries: the list of paths printed (empty
under `count`), and the count printed by the final
`"{} results found"` line (`files.len()`). -/
def find_file (entries : List Entry) (search_term : String)
    (o : Options) : List String × Nat :=
  let files := matchedFiles entries search_term o
  ((if o.count then [] else printLoop o.limit 0 files), files.length)

end Locate

namespace Touch

/-- `touch`'s options record (`struct Options`). -/
structure Options where
  no_create : Bool
  directory : Bool
  acc_time : Bool
  mod_time : Bool
deriving DecidableEq

/-- `Options::new()`: everything off. -/
def Options.new : Options :=
  { no_create := false, directory := false, acc_time := false, mod_time := false }

/-- Outcome of `touch`'s `check_args` (no flag of `touch` takes a value,
so no value-error or panic path exists there). -/
inductive CheckResult where
  | usageExit
  | helpExit
  | ok (o : Options)
deriving DecidableEq

/-- `touch`'s `check_args`: inspects only `args[1]`; an unrecognized
first argument falls through leaving the defaults. -/
def check_args (args : List String) : CheckResult :=
  if args.length = 1 then .usageExit
  else
    match args.get? 1 with
    | none => .ok Options.new
    | some arg =>
      if arg == "/h" || arg == "--help" then .helpExit
      else if arg == "/c" || arg == "--no-create" then
        .ok { Options.new with no_create := true }
      else if arg == "/d" || arg == "--directory" then
        .ok { Options.new with directory := true }
      else if arg == "/a" || arg == "--access-time" then
        .ok { Options.new with acc_time := true }
      else if arg == "/m" || arg == "--modification-time" then
        .ok { Options.new with mod_time := true }
      else .ok Options.new

/-- Result of `File::create_new` on a target. -/
inductive CreateNewResult where
  | created
  | permissionDenied
  | alreadyExists
  | otherErr
deriving DecidableEq

/-- Result of `fs::create_dir_all` on a target. -/
inductive MkdirResult where
  | created
  | permissionDenied
  | otherErr
deriving DecidableEq

/-- Which timestamps a `create_file` call sets on an existing file. -/
inductive TimeUpdate where
  | atime
  | mtime
  | both
deriving DecidableEq

/-- Observable effect of `make_file` on one target: nothing, a directory
tree created, a fresh empty file created, the named timestamps of an
existing file set to the current time, a diagnostic printed followed by
`process::exit(1)`, or a panic from `set_file_*(..).unwrap()`. -/
inductive Effect where
  | nothing
  | madeDirs
  | madeFile
  | setTimes (t : TimeUpdate)
  | fatalExit
  | panicked
deriving DecidableEq

/-- `create_file`: attempt `File::create_new`; on success nothing more
happens; permission-denied and other errors print and exit 1; on
already-exists the timestamps selected by the `type_` string are set via
`filetime::set_file_*(..).unwrap()`, whose failure (`setOk = false`)
panics. -/
def create_file (type_ : String) (cres : CreateNewResult) (setOk : Bool) : Effect :=
  match cres with
  | .created => .madeFile
  | .permissionDenied => .fatalExit
  | .alreadyExists =>
    if setOk then
      if type_ == "a" then .setTimes .atime
      else if type_ == "m" then .setTimes .mtime
      else .setTimes .both
    else .panicked
  | .otherErr => .fatalExit

/-- `make_file`: the decision chain of `touch` for one target.
`exists_` models `Path::new(file_name).exists()`; `dres` and `cres` model
the filesystem results the branches would observe; `setOk` models the
success of the timestamp write. -/
def make_file (o : Options) (exists_ : Bool) (dres : MkdirResult)
    (cres : CreateNewResult) (setOk : Bool) : Effect :=
  if o.no_create && !exists_ then .nothing
  else if o.directory then
    match dres with
    | .created => .madeDirs
    | .permissionDenied => .fatalExit
    | .otherErr => .fatalExit
  else if o.acc_time then create_file "a" cres setOk
  else if o.mod_time then create_file "m" cres setOk
  else create_file "none" cres setOk

/-- The ten flag strings `touch`'s main loop recognizes and skips. -/
def arguments : List String :=
  ["/h", "--help", "/c", "--no-create", "/d", "--directory",
   "/a", "--access-time", "/m", "--modification-time"]

/-- The targets `touch`'s `main` loop passes to `make_file`: every
argument, in order, except those equal to the executable's stem or full
name or textually equal to a recognized flag. -/
def touchTargets (file_name file_name_exe : String) (args : List String) :
    List String :=
  args.filter fun a =>
    !(a == file_name || a == file_name_exe || arguments.contains a)

/-- The per-target effects of a `touch` run after `check_args` returned
normally: each surviving target is processed independently via
`make_file`, the filesystem outcomes being given per target. -/
def touchEffects (file_name file_name_exe : String) (args : List String)
    (o : Options) (exists_ : String → Bool) (dres : String → MkdirResult)
    (cres : String → CreateNewResult) (setOk : String → Bool) :
    List (String × Effect) :=
  (touchTargets file_name file_name_exe args).map fun t =>
    (t, make_file o (exists_ t) (dres t) (cres t) (setOk t))

end Touch

/-! ### Specification-side definitions and concrete fixtures -/

/-- Follows the specified unit table for byte-size tokens: multiply the
digit value by 1024 / 1024² / 1024³ for unit `k` / `m` / `g`
case-insensitively, by 1 for the empty unit, and fail on any other unit
(products in `u64`, so modulo `2^64`). -/
def scaleUnit (v : Nat) (us : List Char) : Option Nat :=
  match lowerL us with
  | ['k'] => some (v * 1024 % 2 ^ 64)
  | ['m'] => some (v * 1024 * 1024 % 2 ^ 64)
  | ['g'] => some (v * 1024 * 1024 * 1024 % 2 ^ 64)
  | [] => some v
  | _ => none

/-- The four mutually-exclusive matching modes the specification ascribes
to `locate`, a compiled regex carried as its matching function. -/
inductive LMode where
  | plain
  | baseName
  | caseSens
  | regexM (r : String → Bool)

/-- The mode encoded by an options record, defined exactly when at most
one of the three mode selectors (`base_name`, `case_sens`, a set regex)
is active — the mutual-exclusivity invariant of the option record. -/
def optsMode (o : Locate.Options) : Option LMode :=
  match o.base_name, o.case_sens, o.regex with
  | true, false, none => some .baseName
  | false, true, none => some .caseSens
  | false, false, some r => some (.regexM r)
  | false, false, none => some .plain
  | _, _, _ => none

/-- Follows the specified matching predicate, one clause per mode:
basename mode compares lowercased basename against lowercased term;
case-sensitive mode compares the displayed path verbatim; regex mode
matches the pattern against the lowercased displayed path; plain mode
compares lowercased displayed path against lowercased term. -/
def matchesSpec (display name term : String) : LMode → Bool
  | .baseName => containsL (lowerL name.data) (lowerL term.data)
  | .caseSens => containsL display.data term.data
  | .regexM r => r (lowerStr display)
  | .plain => containsL (lowerL display.data) (lowerL term.data)

/-- Follows the specified four-outcome decision of `touch` per target:
no-op under `no_create` on an absent target; directory creation in
directory mode; otherwise exclusive file creation whose already-exists
outcome updates the timestamps selected by the two time flags. -/
def makeFileSpec (o : Touch.Options) (exists_ : Bool)
    (dres : Touch.MkdirResult) (cres : Touch.CreateNewResult) : Touch.Effect :=
  if o.no_create && !exists_ then .nothing
  else if o.directory then
    match dres with
    | .created => .madeDirs
    | .permissionDenied => .fatalExit
    | .otherErr => .fatalExit
  else
    match cres with
    | .created => .madeFile
    | .permissionDenied => .fatalExit
    | .alreadyExists =>
      .setTimes
        (if o.acc_time then .atime else if o.mod_time then .mtime else .both)
    | .otherErr => .fatalExit

/-- Fixture filesystem: two small readable text files. -/
def fsAB : String → Option Tail.TFile := fun p =>
  if p = "a.txt" then some ⟨[65, 10, 66, 10], some "A\nB\n"⟩
  else if p = "b.txt" then some ⟨[67, 10], some "C\n"⟩
  else none

/-- Fixture filesystem: one file holding the single byte `0xFF`, which is
not valid UTF-8, so its text decoding is unavailable. -/
def fsBin : String → Option Tail.TFile := fun p =>
  if p = "bin.dat" then some ⟨[255], none⟩ else none

/-- Fixture filesystem: one one-byte text file. -/
def fsOne : String → Option Tail.TFile := fun p =>
  if p = "f" then some ⟨[65], some "A"⟩ else none

/-- Fixture walk entry: an accessible regular file `./hello.txt`. -/
def entryEx : Locate.Entry := ⟨⟨"./hello.txt", some "hello.txt"⟩, true, true⟩

/-! ### Helper lemmas -/

/-- `takeWhile`/`dropWhile` split an append at the predicate boundary. -/
theorem takeWhile_app (p : Char → Bool) :
    ∀ (l1 l2 : List Char), (∀ c ∈ l1, p c = true) →
      (∀ c, l2.head? = some c → p c = false) →
      (l1 ++ l2).takeWhile p = l1 ∧ (l1 ++ l2).dropWhile p = l2
  | [], l2, _, h2 => by
    cases l2 with
    | nil => exact ⟨rfl, rfl⟩
    | cons c t =>
      have hc := h2 c rfl
      simp [List.takeWhile_cons, List.dropWhile_cons, hc]
  | a :: l1, l2, h1, h2 => by
    have ha := h1 a (by simp)
    have ih := takeWhile_app p l1 l2 (fun c hc => h1 c (by simp [hc])) h2
    simp [List.takeWhile_cons, List.dropWhile_cons, ha, ih.1, ih.2]

/-- `parse_size` on a digit run followed by a non-digit-leading suffix:
the digit run is parsed as `u64` and the suffix scaled as the unit. -/
theorem parse_size_split (ds us : List Char)
    (h1 : ∀ c ∈ ds, Char.isDigit c = true)
    (h2 : ∀ c, us.head? = some c → Char.isDigit c = false) :
    Tail.parse_size ⟨ds ++ us⟩ =
      match parseDigitsU64 ds with
      | none => none
      | some v => scaleUnit v us := by
  have h := takeWhile_app Char.isDigit ds us h1 h2
  unfold Tail.parse_size
  dsimp only
  rw [h.1, h.2]
  cases hp : parseDigitsU64 ds with
  | none => rfl
  | some v => rfl

/-- A nonempty digit run below the `u64` bound parses to its value. -/
theorem parseDigitsU64_pos (ds : List Char) (hne : ds ≠ [])
    (h1 : ∀ c ∈ ds, Char.isDigit c = true) (hlt : digitsVal ds < 2 ^ 64) :
    parseDigitsU64 ds = some (digitsVal ds) := by
  unfold parseDigitsU64
  have he : ds.isEmpty = false := by
    cases ds with
    | nil => exact absurd rfl hne
    | cons c t => rfl
  have ha : ds.all Char.isDigit = true := List.all_eq_true.mpr h1
  have hlt' : digitsVal ds < 18446744073709551616 := by simpa using hlt
  simp [he, ha, hlt']

/-- A digit run at or above the `u64` bound fails to parse. -/
theorem parseDigitsU64_big (ds : List Char) (hne : ds ≠ [])
    (h1 : ∀ c ∈ ds, Char.isDigit c = true) (hge : 2 ^ 64 ≤ digitsVal ds) :
    parseDigitsU64 ds = none := by
  unfold parseDigitsU64
  have he : ds.isEmpty = false := by
    cases ds with
    | nil => exact absurd rfl hne
    | cons c t => rfl
  have ha : ds.all Char.isDigit = true := List.all_eq_true.mpr h1
  have hge' : ¬ digitsVal ds < 18446744073709551616 := by
    simpa [Nat.not_lt] using hge
  simp [he, ha, hge']

/-- The byte-mode read is the final `n`-byte slice: seek-then-read equals
dropping all but the last `n` bytes (truncated subtraction realising
`max(0, len - n)`). -/
theorem tailBytesRead_drop (bs : List Nat) (n : Nat) :
    Tail.tailBytesRead bs n = bs.drop (bs.length - n) := by
  unfold Tail.tailBytesRead
  dsimp only
  by_cases h : bs.length > n
  · rw [if_pos h]
    have hlen : (bs.drop (bs.length - n)).length = n := by
      rw [List.length_drop]; omega
    rw [List.take_of_length_le (le_of_eq hlen)]
  · rw [if_neg h]
    have hn : bs.length - n = 0 := by omega
    rw [hn, List.drop_zero]
    exact List.take_of_length_le (by omega)

/-- The printing loop emits the whole list when no enumeration index hits
the limit after `u32` truncation. -/
theorem printLoop_all (limit : Nat) :
    ∀ (l : List String) (start : Nat),
      (∀ j, j < l.length → (start + j) % 2 ^ 32 ≠ limit) →
      Locate.printLoop limit start l = l
  | [], _, _ => rfl
  | f :: rest, start, h => by
    unfold Locate.printLoop
    have h0 : start % 4294967296 ≠ limit := by simpa using h 0 (by simp)
    have hrec := printLoop_all limit rest (start + 1)
      (fun j hj => by
        have h' := h (j + 1) (by simpa using Nat.succ_lt_succ hj)
        have e : start + 1 + j = start + (j + 1) := by omega
        rw [e]; exact h')
    simp [h0, hrec]

/-! ### Claim theorems -/

/-- Claim C1: the claim states that each named file is processed exactly
once, in command-line order, and that a flag after a file argument never
affects files already processed.  The code nests the per-file loop inside
the argument scan over the growing `file_paths` accumulator, so `tail
a.txt b.txt` emits `a.txt`'s header and content twice, and with `tail
a.txt /n 1 b.txt` the re-emission of `a.txt` uses the options set by the
later `/n 1` flag. -/
theorem C1_duplicate_processing :
    (Tail.tailMain fsAB "tail" ["tail", "a.txt", "b.txt"]).events.map Prod.fst =
      ["a.txt", "a.txt", "b.txt"] ∧
    (Tail.tailMain fsAB "tail" ["tail", "a.txt", "/n", "1", "b.txt"]).events =
      [("a.txt", .linesOut [['A'], ['B'], []]),
       ("a.txt", .linesOut [[]]),
       ("b.txt", .linesOut [[]])] := by
  constructor
  · decide
  · decide

/-- Claim C2: the claim states that a recognized value-taking flag at
`args[1]` with a missing or malformed value always yields a specific
standard-error message and exit code 1.  The malformed case does (last
two conjuncts), but a missing value after locate's `/l` or `/r` and
tail's `/l` hits an unchecked `args[2]` index and panics (exit code 101);
only tail's `/b` branch length-checks and reports the designed error. -/
theorem C2_missing_value_panics :
    Tail.check_args ["tail", "/l"] = .panicOOB ∧
    Locate.check_args (fun _ => some (fun _ => false)) ["locate", "/l"] = .panicOOB ∧
    Locate.check_args (fun _ => some (fun _ => false)) ["locate", "/r"] = .panicOOB ∧
    Tail.check_args ["tail", "/b"] =
      .valueErrExit "Error: Missing value after /b or --num-bytes flag" ∧
    Tail.check_args ["tail", "/l", "abc"] =
      .valueErrExit
        "Error: Expected value after /l or --num-lines flag to be a positive whole number" ∧
    Locate.check_args (fun _ => some (fun _ => false)) ["locate", "/l", "abc", "x"] =
      .valueErrExit
        "Error: Expected value after limit flag to be a positive whole number" := by
  exact ⟨by decide, rfl, rfl, by decide, by decide, rfl⟩

/-- Claim C3 (counterexample): the claim quantifies over every
`<digits><unit>` string, but a digit run whose value does not fit in
`u64` fails `value.parse::<u64>()` and yields `None`, not the claimed
digit value: `2^64` written in decimal parses to nothing. -/
theorem C3_counterexample :
    Tail.parse_size "18446744073709551616" = none ∧
    Tail.parse_size "18446744073709551616" ≠ some 18446744073709551616 := by
  constructor
  · decide
  · decide

/-- Claim C3 (amended): for `<digits><unit>` strings whose digit value
fits in `u64`, `parse_size` scales by 1024 / 1024² / 1024³ for unit
`k`/`m`/`g` case-insensitively (`u64` products reduced modulo `2^64`),
returns the raw value for the empty unit, and fails on any other unit;
digit runs at or above `2^64` fail; the specified concrete values hold
and non-digit-leading inputs fail. -/
theorem C3_parse_size_amended :
    (∀ ds us : List Char, ds ≠ [] → (∀ c ∈ ds, Char.isDigit c = true) →
      (∀ c, us.head? = some c → Char.isDigit c = false) →
      digitsVal ds < 2 ^ 64 →
      Tail.parse_size ⟨ds ++ us⟩ = scaleUnit (digitsVal ds) us) ∧
    (∀ ds us : List Char, ds ≠ [] → (∀ c ∈ ds, Char.isDigit c = true) →
      (∀ c, us.head? = some c → Char.isDigit c = false) →
      2 ^ 64 ≤ digitsVal ds →
      Tail.parse_size ⟨ds ++ us⟩ = none) ∧
    Tail.parse_size "2k" = some 2048 ∧
    Tail.parse_size "3m" = some 3145728 ∧
    Tail.parse_size "1g" = some 1073741824 ∧
    Tail.parse_size "hello" = none ∧
    Tail.parse_size "12x" = none := by
  refine ⟨?_, ?_, by decide, by decide, by decide, by decide, by decide⟩
  · intro ds us hne h1 h2 hlt
    rw [parse_size_split ds us h1 h2, parseDigitsU64_pos ds hne h1 hlt]
  · intro ds us hne h1 h2 hge
    rw [parse_size_split ds us h1 h2, parseDigitsU64_big ds hne h1 hge]

/-- Witness for C3's amended theorem at the concrete token `2k`. -/
theorem C3_parse_size_amended_witness :
    Tail.parse_size ⟨['2', 'k']⟩ = scaleUnit (digitsVal ['2']) ['k'] :=
  C3_parse_size_amended.1 ['2'] ['k'] (by decide) (by decide) (by decide) (by decide)

/-- Claim C4 (counterexample): the claim's default branch says the
predicate holds when the lowercased displayed path contains the
lowercased term, but `matches_search` first requires a UTF-8-decodable
basename and returns `false` without one: a file whose name is a single
invalid byte displays as `./�`, its basename decodes to nothing, and
the term `.` is rejected although the displayed path contains it. -/
theorem C4_counterexample :
    Locate.matches_search ⟨"./�", none⟩ "." Locate.Options.new = false ∧
    containsL (lowerL "./�".data) (lowerL ".".data) = true := by
  exact ⟨rfl, by decide⟩

/-- Claim C4 (amended): when the path's basename is available, exactly
one branch is selected by the mutually-exclusive mode encoded in the
options and the predicate agrees with the specified per-mode clause; when
the basename is unavailable the predicate is `false` in every mode. -/
theorem C4_matches_search_amended (p : Locate.PathM) (term : String)
    (o : Locate.Options) (m : LMode) (hm : optsMode o = some m) :
    Locate.matches_search p term o =
      (match p.fileName with
       | some name => matchesSpec p.display name term m
       | none => false) := by
  obtain ⟨d, fn⟩ := p
  cases fn with
  | none => cases m <;> rfl
  | some name =>
    obtain ⟨bn, cs, cnt, lim, rx⟩ := o
    cases bn <;> cases cs <;> cases rx <;>
      simp_all [optsMode, Locate.matches_search, matchesSpec] <;>
      subst hm <;> rfl

/-- Witness for C4's amended theorem at a concrete path, term and the
default (plain) mode. -/
theorem C4_matches_search_amended_witness :
    Locate.matches_search ⟨"./Ab.txt", some "Ab.txt"⟩ "b" Locate.Options.new =
      (match (some "Ab.txt" : Option String) with
       | some name => matchesSpec "./Ab.txt" name "b" .plain
       | none => false) :=
  C4_matches_search_amended ⟨"./Ab.txt", some "Ab.txt"⟩ "b" Locate.Options.new
    .plain rfl

/-- Claim C5: in byte-mode `tail` emits exactly the bytes from offset
`max(0, len - num_bytes)` (truncated subtraction) to the end — at most
`num_bytes` of them, the whole file when `num_bytes ≥ len` — and the
emission succeeds on any byte content (the decode is permissive, never
fatal, and nothing beyond the read bytes is emitted). -/
theorem C5_byte_mode (f : Tail.TFile) (n nl : Nat) :
    Tail.processFile { num_lines := nl, num_bytes := some n } f =
      some (.bytesOut (f.bytes.drop (f.bytes.length - n))) ∧
    (f.bytes.drop (f.bytes.length - n)).length ≤ n ∧
    (f.bytes.length ≤ n → f.bytes.drop (f.bytes.length - n) = f.bytes) := by
  refine ⟨?_, ?_, ?_⟩
  · simp only [Tail.processFile, tailBytesRead_drop]
  · rw [List.length_drop]; omega
  · intro h
    have h0 : f.bytes.length - n = 0 := by omega
    rw [h0, List.drop_zero]

/-- Witness for C5 on a three-byte non-UTF-8 file with `num_bytes = 5`. -/
theorem C5_byte_mode_witness :
    Tail.processFile { num_lines := 10, num_bytes := some 5 } ⟨[1, 2, 3], none⟩ =
      some (.bytesOut (([1, 2, 3] : List Nat).drop (([1, 2, 3] : List Nat).length - 5))) ∧
    ([1, 2, 3] : List Nat).drop (([1, 2, 3] : List Nat).length - 5) = [1, 2, 3] :=
  ⟨(C5_byte_mode ⟨[1, 2, 3], none⟩ 5 10).1,
   (C5_byte_mode ⟨[1, 2, 3], none⟩ 5 10).2.2 (by decide)⟩

/-- Claim C6: the final `"{} results found"` line reports the full
matched count, never clipped by `limit`; and with the unbounded sentinel
limit (`u32::MAX`) and `count_only` off, the number of printed paths
equals that count (for any run whose match count is representable below
the `u32` sentinel). -/
theorem C6_count_unclipped (entries : List Locate.Entry) (term : String)
    (o : Locate.Options) :
    (Locate.find_file entries term o).2 =
      (Locate.matchedFiles entries term o).length ∧
    (o.limit = 2 ^ 32 - 1 → o.count = false →
      (Locate.matchedFiles entries term o).length < 2 ^ 32 →
      (Locate.find_file entries term o).1.length =
        (Locate.find_file entries term o).2) := by
  constructor
  · rfl
  · intro hlim hcnt hlen
    show (if o.count then [] else
      Locate.printLoop o.limit 0 (Locate.matchedFiles entries term o)).length = _
    rw [hcnt]
    simp only [if_neg Bool.false_ne_true]
    rw [hlim]
    rw [printLoop_all (2 ^ 32 - 1) (Locate.matchedFiles entries term o) 0
      (fun j hj => by
        rw [Nat.zero_add, Nat.mod_eq_of_lt (by omega)]
        omega)]
    rfl

/-- Witness for C6 on a one-entry walk with the default options. -/
theorem C6_count_unclipped_witness :
    (Locate.find_file [entryEx] "hello" Locate.Options.new).1.length =
      (Locate.find_file [entryEx] "hello" Locate.Options.new).2 :=
  (C6_count_unclipped [entryEx] "hello" Locate.Options.new).2 rfl rfl (by decide)

/-- Claim C7: `touch`'s per-target decision has exactly the four
specified outcomes — `no_create` on an absent target is a no-op,
directory mode creates the tree, otherwise exclusive creation is
attempted and an already-existing file gets its access time,
modification time or both set according to the two time flags (stated
for a timestamp write that succeeds; its failure path is a panic,
settled under C8). -/
theorem C7_make_file_refines (o : Touch.Options) (exists_ : Bool)
    (dres : Touch.MkdirResult) (cres : Touch.CreateNewResult) :
    Touch.make_file o exists_ dres cres true = makeFileSpec o exists_ dres cres := by
  obtain ⟨nc, dir, at_, mt⟩ := o
  cases nc <;> cases dir <;> cases at_ <;> cases mt <;> cases exists_ <;>
    cases dres <;> cases cres <;> rfl

/-- Claim C8: the claim states every fatal condition exits with code 1
(or 0 for help), but two fatal conditions reached after a file is opened
are `unwrap()` panics, which terminate with the Rust panic exit code 101:
line-mode `read_to_string` on a non-UTF-8 file, and a failed
`filetime::set_file_*` update in `touch` on an existing file. -/
theorem C8_panics_not_exit1 :
    (Tail.tailMain fsBin "tail" ["tail", "bin.dat"]).term = .panicked ∧
    Touch.make_file Touch.Options.new true .created .alreadyExists false =
      .panicked := by
  exact ⟨by decide, by decide⟩

/-- Claim C9: `parse_size` computes in `u64`, but both call sites store
`size as u32`: any successfully parsed size is reduced modulo `2^32`
in the options record at the `check_args` site and at the
`display_files` site, never rejected; in particular `4g` parses to
`2^32` and ends up as 0 bytes, so the whole run silently emits nothing
of the file. -/
theorem C9_u32_truncation :
    (∀ (s : String) (v : Nat), Tail.parse_size s = some v →
        Tail.check_args ["tail", "/b", s, "f"] =
          .ok { num_lines := 10, num_bytes := some (v % 2 ^ 32) }) ∧
    (∀ (s : String) (v : Nat), Tail.parse_size s = some v →
        Tail.display_files fsOne "tail" ["tail", "/b", s, "f"] Tail.Options.new =
          ⟨[("f", .bytesOut (Tail.tailBytesRead [65] (v % 2 ^ 32)))], .normal⟩) ∧
    Tail.parse_size "4g" = some 4294967296 ∧
    Tail.tailMain fsOne "tail" ["tail", "/b", "4g", "f"] =
      ⟨[("f", .bytesOut [])], .normal⟩ := by
  refine ⟨?_, ?_, by decide, by decide⟩
  · intro s v h
    simp +decide [Tail.check_args, h, Tail.Options.new]
  · intro s v h
    simp +decide [Tail.display_files, Tail.dfLoop, h, fsOne, Tail.procAll,
      Tail.processFile, startsDashSlash, Tail.Options.new]

/-- Witness for C9 at the token `2k` (2048 fits in `u32`, so the stored
value is `2048 % 2^32`). -/
theorem C9_u32_truncation_witness :
    Tail.check_args ["tail", "/b", "2k", "f"] =
      .ok { num_lines := 10, num_bytes := some (2048 % 2 ^ 32) } ∧
    Tail.display_files fsOne "tail" ["tail", "/b", "2k", "f"] Tail.Options.new =
      ⟨[("f", .bytesOut (Tail.tailBytesRead [65] (2048 % 2 ^ 32)))], .normal⟩ :=
  ⟨C9_u32_truncation.1 "2k" 2048 (by decide),
   C9_u32_truncation.2.1 "2k" 2048 (by decide)⟩

/-- Claim C10: `touch`'s main loop skips, at any position, every argument
textually equal to one of the ten recognized flag strings (or to the
executable's stem or file name), so a target named like a flag string is
never passed to `make_file`: it is neither created nor has its
timestamps updated. -/
theorem C10_flag_named_never_touched (fn fne a : String) (args : List String)
    (o : Touch.Options) (ex : String → Bool) (dres : String → Touch.MkdirResult)
    (cres : String → Touch.CreateNewResult) (setOk : String → Bool)
    (h : a ∈ Touch.arguments) :
    a ∉ Touch.touchTargets fn fne args ∧
    ∀ eff, (a, eff) ∉ Touch.touchEffects fn fne args o ex dres cres setOk := by
  constructor
  · intro hin
    have hf := List.of_mem_filter hin
    simp at hf
    exact hf.2 h
  · intro eff hin
    unfold Touch.touchEffects at hin
    obtain ⟨t, ht, heq⟩ := List.mem_map.mp hin
    have hta : t = a := congrArg Prod.fst heq
    subst hta
    have hf := List.of_mem_filter ht
    simp at hf
    exact hf.2 h

/-- Witness for C10: a target literally named `/c` among the arguments of
a `touch /c x` invocation is skipped. -/
theorem C10_flag_named_never_touched_witness :
    "/c" ∉ Touch.touchTargets "touch" "touch.exe" ["touch", "/c", "x"] ∧
    ∀ eff, ("/c", eff) ∉ Touch.touchEffects "touch" "touch.exe" ["touch", "/c", "x"]
      Touch.Options.new (fun _ => false) (fun _ => .created) (fun _ => .created)
      (fun _ => true) :=
  C10_flag_named_never_touched "touch" "touch.exe" "/c" ["touch", "/c", "x"]
    Touch.Options.new (fun _ => false) (fun _ => .created) (fun _ => .created)
    (fun _ => true) (by decide)
